import Mathlib

/-!
Verification of the oamap transformation layer (`oamap/operations.py`).

The Python source is shallowly embedded: numpy arrays become Lean lists,
the per-row iteration kernels become structural recursions over those
lists, and raised exceptions become `Except.error` values.  Components of
the repository that are not part of `src/` (the proxy classes of
`oamap.proxy`, the `DualSource` overlay of `oamap.util` and the mask
sentinel of `oamap.generator`) are modelled from the specification; each
such definition says so in its doc comment.
-/

set_option maxHeartbeats 1000000

/-- Exception taxonomy used by `operations.py`: `TypeError`, `ValueError`,
`NotImplementedError`, `AttributeError` and numpy `IndexError`. -/
inductive Err where
  | typeErr : String → Err
  | valueErr : String → Err
  | notImpl : String → Err
  | attrErr : String → Err
  | indexErr : Err
  deriving DecidableEq, Repr

/-- Message of the guard `raise TypeError("... can only be applied to a
top-level OAMap proxy (List, Record, Tuple)")` shared by flatten, filter,
define, map and reduce (the per-operation name is elided). -/
def msgTopLevel : String := "can only be applied to a top-level OAMap proxy (List, Record, Tuple)"

/-- The attribute read `data._index` that fails on a ListProxy. -/
def nameIndexAttr : String := "_index"

/-- Message of `raise NotImplementedError("nullable; need to merge masks")`. -/
def msgNullable : String := "nullable; need to merge masks"

/-- Message of flatten's non-contiguity failure. -/
def msgNonContiguous : String := "inner arrays are not contiguous: flatten would require the creation of pointers"

/-- Message of define's non-contiguity failure. -/
def msgNonContigDefine : String := "non-contiguous arrays: have to do some sort of concatenation"

/-- Message of mask's NaN-endpoint failure. -/
def msgNaNRange : String := "if a range is specified, neither of the endpoints can be NaN"

/-- Message of merge's length-mismatch failure. -/
def msgLenMismatch : String := "some of the paths refer to lists of different lengths"

/-- Message of reduce's arity check. -/
def msgArity : String := "function must have at least two parameters (data and tally)"

/-- A proxy reduced to its cursor, the only state the transforms read.
Modelled from the spec: a ListProxy carries `(whence, stride, length)`
and a Record/Tuple proxy carries `index`; a ListProxy has no `_index`
attribute (`oamap.proxy` is external to `src/`). -/
inductive Proxy where
  | listP (whence stride length : Nat)
  | recordP (index : Nat)
  | tupleP (index : Nat)
  deriving DecidableEq, Repr

/-- The guard
`(isinstance(data, ListProxy) and data._whence == 0 and data._stride == 1) or (isinstance(data, Proxy) and data._index == 0)`
of flatten/filter/define/map/reduce.  A ListProxy that fails the first
disjunct reaches `data._index` in the second disjunct, and a ListProxy has
no `_index` attribute, so that read fails (AttributeError) instead of the
guard's own TypeError. -/
def toplevel : Proxy → Except Err Unit
  | .listP w s _ => if w = 0 ∧ s = 1 then .ok () else .error (.attrErr nameIndexAttr)
  | .recordP i => if i = 0 then .ok () else .error (.typeErr msgTopLevel)
  | .tupleP i => if i = 0 then .ok () else .error (.typeErr msgTopLevel)

/-- `_setindexes(input, output)`: copy the input proxy's cursor fields onto
the output proxy (the kinds agree in every call site, since these
transforms do not change the top-level node kind). -/
def setindexes : Proxy → Proxy → Proxy
  | .listP w s l, .listP _ _ _ => .listP w s l
  | .recordP i, .recordP _ => .recordP i
  | .tupleP i, .tupleP _ => .tupleP i
  | _, out => out

/-- Modelled from the spec: the cursor of a freshly constructed proxy
`schema(arrays)` over a result with `rows` top-level list rows — the
whole-collection cursor for a list, row 0 for a record or tuple
(`oamap.proxy` is external to `src/`). -/
def freshTop (p : Proxy) (rows : Nat) : Proxy :=
  match p with
  | .listP _ _ _ => .listP 0 1 rows
  | .recordP _ => .recordP 0
  | .tupleP _ => .tupleP 0

/-- C10 (amended): the guard accepts exactly a ListProxy with whence 0 and
stride 1 (any length) or a Record/Tuple proxy with index 0; a Record/Tuple
proxy with a nonzero index raises the top-level TypeError, while a
ListProxy with nonzero whence or non-unit stride instead fails reading the
missing `_index` attribute. -/
theorem toplevel_semantics (p : Proxy) :
    (toplevel p = .ok () ↔ ((∃ n, p = .listP 0 1 n) ∨ p = .recordP 0 ∨ p = .tupleP 0))
    ∧ (∀ i, i ≠ 0 → toplevel (.recordP i) = .error (.typeErr msgTopLevel))
    ∧ (∀ i, i ≠ 0 → toplevel (.tupleP i) = .error (.typeErr msgTopLevel))
    ∧ (∀ w s l, ¬(w = 0 ∧ s = 1) → toplevel (.listP w s l) = .error (.attrErr nameIndexAttr)) := by
  refine ⟨?_, ?_, ?_, ?_⟩
  · constructor
    · intro h
      cases p with
      | listP w s l =>
        by_cases hws : w = 0 ∧ s = 1
        · exact Or.inl ⟨l, by rw [hws.1, hws.2]⟩
        · rw [show toplevel (.listP w s l)
              = if w = 0 ∧ s = 1 then .ok () else .error (.attrErr nameIndexAttr) from rfl,
            if_neg hws] at h
          cases h
      | recordP i =>
        by_cases hi : i = 0
        · subst hi; exact Or.inr (Or.inl rfl)
        · rw [show toplevel (.recordP i)
              = if i = 0 then .ok () else .error (.typeErr msgTopLevel) from rfl,
            if_neg hi] at h
          cases h
      | tupleP i =>
        by_cases hi : i = 0
        · subst hi; exact Or.inr (Or.inr rfl)
        · rw [show toplevel (.tupleP i)
              = if i = 0 then .ok () else .error (.typeErr msgTopLevel) from rfl,
            if_neg hi] at h
          cases h
    · rintro (⟨n, hn⟩ | hn | hn) <;> subst hn <;> rfl
  · intro i hi; simp [toplevel, hi]
  · intro i hi; simp [toplevel, hi]
  · intro w s l hws; simp [toplevel, hws]

/-- C10 counterexample: a ListProxy with whence 1 makes the guard read the
missing `_index` attribute, so the failure is an AttributeError, not the
TypeError the claim states. -/
theorem toplevel_list_attr_error :
    toplevel (.listP 1 1 5) = .error (.attrErr nameIndexAttr)
    ∧ Err.attrErr nameIndexAttr ≠ Err.typeErr msgTopLevel := by
  constructor
  · rfl
  · intro h; cases h

/-- C10 witness: the amended theorem applied to a RecordProxy with index 3. -/
theorem toplevel_semantics_w :
    toplevel (.recordP 3) = .error (.typeErr msgTopLevel) :=
  (toplevel_semantics (.recordP 3)).2.1 3 (by decide)

/-- Namespaces of the array address space.  Modelled from the spec with
numeric identifiers: the contract is only that fresh namespaces never
collide with known ones (`oamap.util.DualSource` is external to `src/`). -/
abbrev NS := Nat

/-- The sentinel written into a mask for an absent value.  Modelled from
the spec (`oamap.generator.Masked.maskedvalue` is external to `src/`): a
fixed value distinct from any packed-buffer index. -/
def maskedvalue : Int := 2147483647

/-- A List schema node as merge's agreement check sees it: its namespace
and the role-qualified names of its starts and stops arrays. -/
structure ListRefs where
  nspace : NS
  starts : String
  stops : String
  deriving DecidableEq, Repr

/-- The per-candidate loop of merge's agreement check: fetch each
candidate's starts/stops and raise
`ValueError("some of the paths refer to lists of different lengths")` when
`not (starts1 is starts2 or array_equal(starts1, starts2)) and not (stops1 is stops2 or array_equal(stops1, stops2))` —
note the `and`.  In the value model `is`-identity implies array equality,
so the two-disjunct test collapses to list equality. -/
def mergeLenLoop (starts1 stops1 : List Int) (src : NS → String → List Int) :
    List ListRefs → Except Err Unit
  | [] => .ok ()
  | x :: xs =>
    if ¬(starts1 = src x.nspace x.starts) ∧ ¬(stops1 = src x.nspace x.stops) then
      .error (.valueErr msgLenMismatch)
    else mergeLenLoop starts1 stops1 src xs

/-- Merge's length-agreement check over the merged list nodes: the cheap
name-identity test (`x.namespace == ... and x.starts == ... and x.stops == ...`
for every later node) short-circuits; otherwise the first node's arrays
are fetched and compared against every other node's. -/
def mergeLenCheck (src : NS → String → List Int) (first : ListRefs) (rest : List ListRefs) :
    Except Err Unit :=
  if rest.all (fun x => x.nspace == first.nspace && x.starts == first.starts && x.stops == first.stops) then
    .ok ()
  else
    mergeLenLoop (src first.nspace first.starts) (src first.nspace first.stops) src rest

/-- Names used by the concrete merge counterexample source. -/
def nameS : String := "s"

/-- Array source for the merge counterexample: namespace 0 holds starts
`[0,3]` / stops `[3,5]`, namespace 1 holds starts `[0,3]` / stops `[3,6]`. -/
def mergeBugSrc : NS → String → List Int := fun ns name =>
  if ns = 0 then (if name = nameS then [0, 3] else [3, 5])
  else (if name = nameS then [0, 3] else [3, 6])

/-- C1 kernel: the fill loop of define's nullable-Primitive branch.  Given
the callback and the remaining view, threading `numitems`, it returns the
mask entries (either the sentinel or the packed index), the packed values
written so far, and the final `numitems`. -/
def defineFill (fcn : α → Option Int) : List α → Nat → List Int × List Int × Nat
  | [], numitems => ([], [], numitems)
  | d :: rest, numitems =>
    match fcn d with
    | none =>
      let r := defineFill fcn rest numitems
      (maskedvalue :: r.1, r.2.1, r.2.2)
    | some v =>
      let r := defineFill fcn rest (numitems + 1)
      ((numitems : Int) :: r.1, v :: r.2.1, r.2.2)

/-- The arrays define's nullable branch publishes: the mask, and the
primitive buffer exactly as the code leaves it — `numpy.empty(len(view))`
with the packed values in its first `numitems` slots and the remaining
slots never written (modelled as `none`); the code discards the kernel's
returned `numitems` and never trims this buffer. -/
def defineNullableArrays (fcn : α → Option Int) (view : List α) :
    List Int × List (Option Int) :=
  let r := defineFill fcn view 0
  (r.1, r.2.1.map some ++ List.replicate (view.length - r.2.2) none)

/-- C3: with starts equal but stops different (`[3,5]` vs `[3,6]`, so the
two lists disagree — row 1 has length 2 vs 3), merge's check raises
nothing and the merge proceeds, because the code joins the two
disagreement tests with `and` instead of `or`. -/
theorem merge_disagreeing_stops_accepted :
    mergeLenCheck mergeBugSrc ⟨0, "s", "t"⟩ [⟨1, "s", "t"⟩] = .ok ()
    ∧ mergeBugSrc 0 "t" ≠ mergeBugSrc 1 "t" := by
  constructor
  · rfl
  · show ¬([3, 5] : List Int) = [3, 6]
    decide

/-- C1: on the 2-element view `[1, 2]` with a callback that is `none` on
the second element, define's nullable branch publishes a primitive buffer
of length 2 while only 1 mask entry is non-sentinel — the packed buffer is
longer than the number of present values, violating the claim. -/
theorem define_nullable_buffer_untrimmed :
    ((defineNullableArrays (fun x : Nat => if x = 1 then some 10 else none) [1, 2]).2).length = 2
    ∧ (((defineNullableArrays (fun x : Nat => if x = 1 then some 10 else none) [1, 2]).1).filter
        (fun m => decide (m ≠ maskedvalue))).length = 1
    ∧ ((defineNullableArrays (fun x : Nat => if x = 1 then some 10 else none) [1, 2]).2).length
      ≠ (((defineNullableArrays (fun x : Nat => if x = 1 then some 10 else none) [1, 2]).1).filter
        (fun m => decide (m ≠ maskedvalue))).length := by
  refine ⟨rfl, ?_, ?_⟩ <;> decide

/-- Model of a float64 cell: `none` is NaN, `some q` a (rational) number.
This captures exactly the comparisons mask uses — `==`, `>=`, `<=` and
`numpy.isnan` — since every comparison with NaN is false. -/
abbrev F := Option ℚ

/-- `math.isnan` / `numpy.isnan` on a cell. -/
def fisnan : F → Bool
  | none => true
  | some _ => false

/-- IEEE equality on cells: false whenever either side is NaN. -/
def feq : F → F → Bool
  | some a, some b => decide (a = b)
  | _, _ => false

/-- IEEE less-or-equal on cells: false whenever either side is NaN. -/
def fle : F → F → Bool
  | some a, some b => decide (a ≤ b)
  | _, _ => false

/-- The boolean selection computed by mask:
`high is None` → equality with `low`, except a NaN `low` selects the NaN
entries; `high` given → NaN endpoints raise `ValueError`, otherwise the
inclusive range `low <= v <= high`. -/
def maskSelection (primitive : List F) (low : F) (high : Option F) :
    Except Err (List Bool) :=
  match high with
  | none =>
    if fisnan low then .ok (primitive.map fisnan)
    else .ok (primitive.map (fun v => feq v low))
  | some h =>
    if fisnan low || fisnan h then .error (.valueErr msgNaNRange)
    else .ok (primitive.map (fun v => fle low v && fle v h))

/-- `mask[selection] = maskedvalue`: write the sentinel at every selected
position of the mask copy. -/
def applySelection (mask : List Int) (sel : List Bool) : List Int :=
  List.zipWith (fun m s => if s then maskedvalue else m) mask sel

/-- The core of the mask operation on a Primitive node: copy the data
array; take the existing mask if the node is nullable, else set the node
nullable and synthesize the identity mask `arange(len(primitive))`; build
the selection (possibly raising on NaN endpoints); write the sentinel at
the selected rows (numpy boolean indexing needs matching lengths).
Returns (nullable-after, data array, mask array). -/
def maskOp (nullable : Bool) (primitive : List F) (oldmask : List Int) (low : F)
    (high : Option F) : Except Err (Bool × List F × List Int) :=
  let m0 := if nullable then oldmask else (List.range primitive.length).map Int.ofNat
  let nullable2 := if nullable then nullable else true
  match maskSelection primitive low high with
  | .error e => .error e
  | .ok sel =>
    if m0.length = sel.length then .ok (nullable2, primitive, applySelection m0 sel)
    else .error .indexErr

theorem applySelection_range' (g : F → Bool) :
    ∀ (prim : List F) (k : Nat),
      applySelection ((List.range' k prim.length).map Int.ofNat) (prim.map g)
        = (prim.enumFrom k).map (fun q => if g q.2 then maskedvalue else (q.1 : Int))
  | [], _ => rfl
  | v :: t, k => by
    simp only [List.length_cons, List.range', List.map_cons, applySelection, List.zipWith,
      List.enumFrom]
    exact congrArg _ (applySelection_range' g t (k + 1))

theorem applySelection_range (g : F → Bool) (prim : List F) :
    applySelection ((List.range prim.length).map Int.ofNat) (prim.map g)
      = prim.enum.map (fun q => if g q.2 then maskedvalue else (q.1 : Int)) := by
  rw [List.range_eq_range', List.enum]
  exact applySelection_range' g prim 0

/-- C6: mask on a non-nullable Primitive makes the node nullable with a
synthesized identity mask (row `i` maps to `i`), leaves the data values
unchanged, and marks as absent (sentinel) exactly: with `high = None` the
rows equal to `low` — or the NaN rows when `low` is NaN; with `high`
given, after rejecting NaN endpoints, the rows in the inclusive range
`[low, high]`. -/
theorem mask_primitive_semantics (prim : List F) (oldmask : List Int) (low : F) :
    (maskOp false prim oldmask low none
        = .ok (true, prim, prim.enum.map (fun q =>
            if (if fisnan low then fisnan q.2 else feq q.2 low) then maskedvalue else (q.1 : Int))))
    ∧ (∀ h, (fisnan low || fisnan h) = true →
        maskOp false prim oldmask low (some h) = .error (.valueErr msgNaNRange))
    ∧ (∀ h, (fisnan low || fisnan h) = false →
        maskOp false prim oldmask low (some h)
          = .ok (true, prim, prim.enum.map (fun q =>
              if fle low q.2 && fle q.2 h then maskedvalue else (q.1 : Int)))) := by
  refine ⟨?_, ?_, ?_⟩
  · cases hl : fisnan low with
    | true => simp [maskOp, maskSelection, hl, applySelection_range]
    | false => simp [maskOp, maskSelection, hl, applySelection_range]
  · intro h hn
    simp [maskOp, maskSelection, hn]
  · intro h hn
    simp [maskOp, maskSelection, hn, applySelection_range]

/-- C6 witness: masking `[2, NaN, 3]` with `low = 2, high = 3` marks rows 0
and 2 absent and leaves the NaN row's identity mask entry; a NaN endpoint
raises `ValueError`. -/
theorem mask_primitive_semantics_w :
    maskOp false [some 2, none, some 3] [] (some 2) (some (some 3))
      = .ok (true, [some 2, none, some 3], [maskedvalue, 1, maskedvalue])
    ∧ maskOp false [some 2, none, some 3] [] (some 2) (some none)
      = .error (.valueErr msgNaNRange) := by
  constructor
  · have h := (mask_primitive_semantics [some 2, none, some 3] [] (some 2)).2.2 (some 3)
      (by decide)
    rw [h]
    rfl
  · exact (mask_primitive_semantics [some 2, none, some 3] [] (some 2)).2.1 none (by decide)

/-- numpy scalar indexing `a[i]` with wrap-around for negative indices:
valid for `-len(a) <= i < len(a)`, otherwise an IndexError (`none`). -/
def npGet (a : List Int) (i : Int) : Option Int :=
  if 0 ≤ i then
    (if i < (a.length : Int) then a.get? i.toNat else none)
  else
    (if -(a.length : Int) ≤ i then a.get? (i + (a.length : Int)).toNat else none)

/-- numpy fancy indexing `a[idx]`: index element-wise, failing if any
index is out of range. -/
def npFancy (a : List Int) : List Int → Option (List Int)
  | [] => some []
  | i :: rest =>
    match npGet a i, npFancy a rest with
    | some v, some vs => some (v :: vs)
    | _, _ => none

/-- The core of flatten once the path has resolved to a List of List:
reject nullability; require the inner storage to be globally contiguous
(`array_equal(innerstarts[1:], innerstops[:-1])`); then the new arrays are
`innerstarts[outerstarts]` and `innerstops[outerstops - 1]`, and the outer
node's content becomes the inner node's content (`cref` passed through);
no element data is touched — only the two index arrays are created. -/
def flattenCore (onull inull : Bool) (ostarts ostops istarts istops : List Int) (cref : Nat) :
    Except Err (List Int × List Int × Nat) :=
  if onull || inull then .error (.notImpl msgNullable)
  else if istarts.drop 1 = istops.dropLast then
    match npFancy istarts ostarts, npFancy istops (ostops.map (fun x => x - 1)) with
    | some s, some t => .ok (s, t, cref)
    | _, _ => .error .indexErr
  else .error (.notImpl msgNonContiguous)

theorem npGet_in_range (a : List Int) (x : Int) (h0 : 0 ≤ x) (h1 : x < (a.length : Int)) :
    npGet a x = some (a.getD x.toNat 0) := by
  have hlt : x.toNat < a.length := by omega
  rw [npGet, if_pos h0, if_pos h1, List.getD_eq_getD_get?, List.get?_eq_get hlt]
  rfl

theorem npFancy_in_range (a : List Int) :
    ∀ idx : List Int, (∀ x ∈ idx, 0 ≤ x ∧ x < (a.length : Int)) →
      npFancy a idx = some (idx.map (fun x => a.getD x.toNat 0))
  | [], _ => rfl
  | i :: rest, h => by
    have hi := h i (List.mem_cons_self i rest)
    rw [npFancy, npGet_in_range a i hi.1 hi.2,
      npFancy_in_range a rest (fun x hx => h x (List.mem_cons_of_mem i hx))]
    rfl

/-- C4: for a non-nullable List of non-nullable List, flatten fails with
the non-contiguity error exactly when `innerstarts[1:] != innerstops[:-1]`;
otherwise it returns starts `innerstarts[outerstarts]`, stops
`innerstops[outerstops - 1]`, and the inner list's content reference
unchanged — no element data is copied, only the two index arrays are
built. -/
theorem flatten_semantics (ostarts ostops istarts istops : List Int) (cref : Nat)
    (hs : ∀ x ∈ ostarts, 0 ≤ x ∧ x < (istarts.length : Int))
    (ht : ∀ x ∈ ostops, 1 ≤ x ∧ x ≤ (istops.length : Int)) :
    (istarts.drop 1 ≠ istops.dropLast →
      flattenCore false false ostarts ostops istarts istops cref
        = .error (.notImpl msgNonContiguous))
    ∧ (istarts.drop 1 = istops.dropLast →
      flattenCore false false ostarts ostops istarts istops cref
        = .ok (ostarts.map (fun x => istarts.getD x.toNat 0),
               ostops.map (fun x => istops.getD (x - 1).toNat 0),
               cref)) := by
  constructor
  · intro hnc
    rw [List.drop_one] at hnc
    simp [flattenCore, List.drop_one, hnc]
  · intro hc
    have h1 : npFancy istarts ostarts = some (ostarts.map (fun x => istarts.getD x.toNat 0)) :=
      npFancy_in_range istarts ostarts hs
    have h2 : npFancy istops (ostops.map (fun x => x - 1))
        = some ((ostops.map (fun x => x - 1)).map (fun x => istops.getD x.toNat 0)) := by
      refine npFancy_in_range istops (ostops.map (fun x => x - 1)) ?_
      intro x hx
      obtain ⟨y, hy, rfl⟩ := List.mem_map.mp hx
      have := ht y hy
      omega
    rw [List.map_map] at h2
    simp only [flattenCore, Bool.or_self, Bool.false_eq_true, if_false, if_pos hc, h1, h2]
    rfl

/-- C4 witness: outer rows `[0,2)` and `[2,3)` over inner rows
`starts=[0,2,5], stops=[2,5,7]` (contiguous) flatten to
`starts=[0,5], stops=[5,7]`, keeping the inner content. -/
theorem flatten_semantics_w :
    flattenCore false false [0, 2] [2, 3] [0, 2, 5] [2, 5, 7] 42
      = .ok ([0, 5], [5, 7], 42) := by
  have h := (flatten_semantics [0, 2] [2, 3] [0, 2, 5] [2, 5, 7] 42
    (by decide) (by decide)).2 (by decide)
  rw [h]
  rfl

/-- `array.min()`: `none` on an empty array (numpy raises there). -/
def npMin : List Nat → Option Nat
  | [] => none
  | x :: xs =>
    match npMin xs with
    | none => some x
    | some m => some (min x m)

/-- `array.max()`: `none` on an empty array (numpy raises there). -/
def npMax : List Nat → Option Nat
  | [] => none
  | x :: xs =>
    match npMax xs with
    | none => some x
    | some m => some (max x m)

/-- Message numpy raises reducing an empty array. -/
def msgEmptyReduction : String := "zero-size array to reduction operation"

/-- A user callback together with its declared parameter count
(`fcn.__code__.co_argcount`): `call` takes the element and the tally. -/
structure FcnWithArity (α β : Type) where
  argcount : Nat
  call : α → β → β

/-- The reduce operation on a resolved non-nullable List: top-level guard;
nullability check; build the flattened view over the
`min(starts)..max(stops)` window; reject callbacks declaring fewer than
two parameters before any iteration; then fold the callback left-to-right
over the view's elements in index order, threading the tally, and return
the final tally (no schema, no view). -/
def reduceOp (p : Proxy) (nullable : Bool) (viewstarts viewstops : List Nat)
    (elem : Nat → α) (tally : β) (fcn : FcnWithArity α β) : Except Err β :=
  match toplevel p with
  | .error e => .error e
  | .ok _ =>
    if nullable then .error (.notImpl msgNullable)
    else
      match npMin viewstarts, npMax viewstops with
      | some lo, some hi =>
        if fcn.argcount < 2 then .error (.typeErr msgArity)
        else .ok (((List.range' lo (hi - lo)).map elem).foldl (fun t d => fcn.call d t) tally)
      | _, _ => .error (.valueErr msgEmptyReduction)

/-- Number of elements of record `i`'s field `x` in the concrete 3-row
scenario of the spec: the `x` lists have lengths `[3, 0, 2]`. -/
def lenxAt (i : Nat) : Nat := ([3, 0, 2] : List Nat).getD i 0

/-- C8: reduce rejects a callback declaring fewer than two parameters with
a TypeError before any iteration (the result does not depend on the
callback body); otherwise it folds the callback left-to-right over every
element of the flattened view in index order, threading the tally, and
returns the final tally; on the spec's 3-row scenario with `x` lengths
`[3,0,2]` and callback `lambda e, t: t + len(e.x)` it returns 5. -/
theorem reduce_semantics (p : Proxy) (viewstarts viewstops : List Nat) (lo hi : Nat)
    (elem : Nat → α) (tally : β) (fcn : FcnWithArity α β)
    (hp : toplevel p = .ok ()) (hlo : npMin viewstarts = some lo)
    (hhi : npMax viewstops = some hi) :
    (fcn.argcount < 2 →
      reduceOp p false viewstarts viewstops elem tally fcn = .error (.typeErr msgArity))
    ∧ (2 ≤ fcn.argcount →
      reduceOp p false viewstarts viewstops elem tally fcn
        = .ok (((List.range' lo (hi - lo)).map elem).foldl (fun t d => fcn.call d t) tally))
    ∧ reduceOp (.listP 0 1 3) false [0] [3] (fun i => i) 0
        ⟨2, fun e t => t + lenxAt e⟩ = .ok 5 := by
  refine ⟨?_, ?_, ?_⟩
  · intro hlt
    simp [reduceOp, hp, hlo, hhi, hlt]
  · intro hge
    have hlt : ¬fcn.argcount < 2 := by omega
    simp [reduceOp, hp, hlo, hhi, hlt]
  · rfl

/-- C8 witness: the general fold statement applied to the concrete 3-row
scenario (starts `[0]`, stops `[3]`), giving `0 + 3 + 0 + 2 = 5`. -/
theorem reduce_semantics_w :
    reduceOp (.listP 0 1 3) false [0] [3] (fun i => i) 0 ⟨2, fun e t => t + lenxAt e⟩
      = .ok (((List.range' 0 (3 - 0)).map (fun i => i)).foldl
          (fun t d => t + lenxAt d) 0) :=
  (reduce_semantics (.listP 0 1 3) [0] [3] 0 3 (fun i => i) 0
    ⟨2, fun e t => t + lenxAt e⟩ rfl rfl rfl).2.1 (by decide)

/-- The array state of a List node as filter sees it: a resolver for the
underlying target elements, the positions array when the content is
already a Pointer (`None` otherwise), and the list's starts/stops. -/
structure FilterState (α : Type) where
  elem : Nat → α
  positions : Option (List Nat)
  starts : List Nat
  stops : List Nat

/-- `view[j]`: resolve element `j` of the list's content — through the
positions array when the content is a Pointer. -/
def viewElem (st : FilterState α) (j : Nat) : α :=
  match st.positions with
  | some pos => st.elem (pos.getD j 0)
  | none => st.elem j

/-- The per-row index ranges `range(viewstarts[i], viewstops[i])` scanned
by filter's kernel. -/
def rowSegs (starts stops : List Nat) : List (List Nat) :=
  (starts.zip stops).map (fun q => List.range' q.1 (q.2 - q.1))

/-- The `offsets` array built by filter: `offsets[0] = 0` and
`offsets[i+1]` the running count of matches after row `i`. -/
def offsetsFrom (a : Nat) : List Nat → List Nat
  | [] => [a]
  | c :: cs => a :: offsetsFrom (a + c) cs

/-- The filter operation's array computation: scan every row's index
range in order, keep the absolute indices whose element satisfies the
predicate (`pointers`, trimmed to the match count), record the running
count per row (`offsets`); when the content was already a Pointer,
compose by one indirection (`pointers = innerpositions[pointers]`) so the
result points at the original target; the result's starts/stops are
`offsets[:-1]` / `offsets[1:]` and its content is a Pointer over the
unchanged target elements. -/
def filterOp (p : α → Bool) (st : FilterState α) : FilterState α :=
  let keep : Nat → Bool := fun j => p (viewElem st j)
  let segs := rowSegs st.starts st.stops
  let ptrs := segs.flatten.filter keep
  let offs := offsetsFrom 0 (segs.map (fun seg => (seg.filter keep).length))
  let newptrs :=
    match st.positions with
    | some pos => ptrs.map (fun k => pos.getD k 0)
    | none => ptrs
  ⟨st.elem, some newptrs, offs.dropLast, offs.tail⟩

/-- The index segments `[range'(a, n0), range'(a+n0, n1), ...]` described
by a list of segment lengths. -/
def segsOfLens (a : Nat) : List Nat → List (List Nat)
  | [] => []
  | c :: cs => List.range' a c :: segsOfLens (a + c) cs

theorem offsetsFrom_cons_tail (a : Nat) (l : List Nat) :
    offsetsFrom a l = a :: (offsetsFrom a l).tail := by
  cases l <;> rfl

theorem rowSegs_offsetsFrom : ∀ (cs : List Nat) (a : Nat),
    rowSegs (offsetsFrom a cs).dropLast (offsetsFrom a cs).tail = segsOfLens a cs
  | [], _ => rfl
  | c :: cs, a => by
    have ih := rowSegs_offsetsFrom cs (a + c)
    rw [show offsetsFrom a (c :: cs) = a :: offsetsFrom (a + c) cs from rfl,
      offsetsFrom_cons_tail (a + c) cs]
    rw [offsetsFrom_cons_tail (a + c) cs] at ih
    simp only [List.tail_cons, List.dropLast_cons₂, rowSegs, List.zip_cons_cons,
      List.map_cons] at ih ⊢
    rw [show segsOfLens a (c :: cs) = List.range' a c :: segsOfLens (a + c) cs from rfl]
    rw [Nat.add_sub_cancel_left] at *
    exact congrArg _ ih

theorem range'_add_append : ∀ (m a n : Nat),
    List.range' a (m + n) = List.range' a m ++ List.range' (a + m) n
  | 0, a, n => by simp [List.range']
  | m + 1, a, n => by
    have hlen : m + 1 + n = (m + n) + 1 := by omega
    rw [hlen]
    show a :: List.range' (a + 1) (m + n)
      = (a :: List.range' (a + 1) m) ++ List.range' (a + (m + 1)) n
    rw [range'_add_append m (a + 1) n, show a + 1 + m = a + (m + 1) from by omega]
    rfl

theorem segsOfLens_flatten : ∀ (cs : List Nat) (a : Nat),
    (segsOfLens a cs).flatten = List.range' a cs.sum
  | [], _ => rfl
  | c :: cs, a => by
    rw [show segsOfLens a (c :: cs) = List.range' a c :: segsOfLens (a + c) cs from rfl,
      List.flatten_cons, segsOfLens_flatten cs (a + c), List.sum_cons,
      range'_add_append c a cs.sum]

theorem filter_flatten (q : Nat → Bool) : ∀ ls : List (List Nat),
    ls.flatten.filter q = (ls.map (fun l => l.filter q)).flatten
  | [] => rfl
  | l :: ls => by
    simp only [List.flatten_cons, List.filter_append, List.map_cons]
    rw [filter_flatten q ls]

theorem getD_append_cons (pre : List Nat) (x : Nat) (suf : List Nat) :
    (pre ++ x :: suf).getD pre.length 0 = x := by
  induction pre with
  | nil => rfl
  | cons p ps ih =>
    rw [List.cons_append, List.length_cons, List.getD_cons_succ]
    exact ih

theorem range'_map_getD : ∀ (row pre suf : List Nat),
    (List.range' pre.length row.length).map (fun k => (pre ++ (row ++ suf)).getD k 0) = row
  | [], _, _ => rfl
  | x :: rs, pre, suf => by
    have ih := range'_map_getD rs (pre ++ [x]) suf
    have hl : (pre ++ [x]) ++ (rs ++ suf) = pre ++ (x :: (rs ++ suf)) := by simp
    have hlen : (pre ++ [x]).length = pre.length + 1 := by simp
    rw [hlen] at ih
    simp only [hl] at ih
    show (pre ++ (x :: (rs ++ suf))).getD pre.length 0
        :: (List.range' (pre.length + 1) rs.length).map
          (fun k => (pre ++ (x :: (rs ++ suf))).getD k 0)
      = x :: rs
    rw [getD_append_cons pre x (rs ++ suf), ih]

theorem length_filter_of_map (f : Nat → Nat) (q : Nat → Bool) : ∀ l : List Nat,
    (l.filter (fun k => q (f k))).length = ((l.map f).filter q).length
  | [] => rfl
  | x :: xs => by
    simp only [List.map_cons, List.filter_cons]
    cases hq : q (f x) <;> simp [hq, length_filter_of_map f q xs]

theorem segsOfLens_filter_length (q : Nat → Bool) : ∀ (ls : List (List Nat)) (pre : List Nat),
    (segsOfLens pre.length (ls.map (fun l => l.length))).map
        (fun seg => (seg.filter (fun k => q ((pre ++ ls.flatten).getD k 0))).length)
      = ls.map (fun row => (row.filter q).length)
  | [], _ => rfl
  | row :: rest, pre => by
    have ih := segsOfLens_filter_length q rest (pre ++ row)
    have hlen : (pre ++ row).length = pre.length + row.length := by simp
    have hassoc : (pre ++ row) ++ rest.flatten = pre ++ (row ++ rest.flatten) := by simp
    rw [hlen] at ih
    simp only [hassoc] at ih
    have hmap : (List.range' pre.length row.length).map
        (fun k => (pre ++ (row ++ rest.flatten)).getD k 0) = row :=
      range'_map_getD row pre rest.flatten
    have hhead := length_filter_of_map
      (fun k => (pre ++ (row ++ rest.flatten)).getD k 0) q (List.range' pre.length row.length)
    rw [hmap] at hhead
    simp only [List.flatten_cons, List.map_cons]
    rw [show segsOfLens pre.length (row.length :: rest.map (fun l => l.length))
        = List.range' pre.length row.length
          :: segsOfLens (pre.length + row.length) (rest.map (fun l => l.length)) from rfl,
      List.map_cons]
    exact congrArg₂ _ hhead ih

theorem map_filter_of_map (f : Nat → Nat) (q : Nat → Bool) : ∀ l : List Nat,
    (l.filter (fun k => q (f k))).map f = (l.map f).filter q
  | [] => rfl
  | x :: xs => by
    simp only [List.map_cons, List.filter_cons]
    cases hq : q (f x) <;> simp [hq, map_filter_of_map f q xs]

theorem compose_pointers (k1 q2 : Nat → Bool) (segs : List (List Nat)) :
    ((rowSegs (offsetsFrom 0 (segs.map (fun seg => (seg.filter k1).length))).dropLast
        (offsetsFrom 0 (segs.map (fun seg => (seg.filter k1).length))).tail).flatten.filter
          (fun j => q2 ((segs.flatten.filter k1).getD j 0))).map
        (fun k => (segs.flatten.filter k1).getD k 0)
      = segs.flatten.filter (fun j => k1 j && q2 j) := by
  have hcounts : segs.map (fun seg => (seg.filter k1).length)
      = (segs.map (fun l => l.filter k1)).map (fun l => l.length) := by
    rw [List.map_map]
    rfl
  have hA : segs.flatten.filter k1 = (segs.map (fun l => l.filter k1)).flatten :=
    filter_flatten k1 segs
  have hsegs2 := rowSegs_offsetsFrom
    ((segs.map (fun l => l.filter k1)).map (fun l => l.length)) 0
  have hN : ((segs.map (fun l => l.filter k1)).map (fun l => l.length)).sum
      = (segs.flatten.filter k1).length := by
    rw [hA]
    simp [List.length_flatten]
  have hP : (List.range' 0 (segs.flatten.filter k1).length).map
      (fun k => (segs.flatten.filter k1).getD k 0) = segs.flatten.filter k1 := by
    simpa using range'_map_getD (segs.flatten.filter k1) [] []
  rw [hcounts, hsegs2, segsOfLens_flatten, hN,
    map_filter_of_map (fun k => (segs.flatten.filter k1).getD k 0) q2, hP,
    List.filter_filter]
  have hcomm : (fun a => q2 a && k1 a) = (fun j => k1 j && q2 j) := by
    funext a
    exact Bool.and_comm (q2 a) (k1 a)
  rw [hcomm]

theorem compose_counts (k1 q2 : Nat → Bool) (segs : List (List Nat)) :
    (rowSegs (offsetsFrom 0 (segs.map (fun seg => (seg.filter k1).length))).dropLast
        (offsetsFrom 0 (segs.map (fun seg => (seg.filter k1).length))).tail).map
        (fun seg => (seg.filter (fun j => q2 ((segs.flatten.filter k1).getD j 0))).length)
      = segs.map (fun seg => (seg.filter (fun j => k1 j && q2 j)).length) := by
  have hcounts : segs.map (fun seg => (seg.filter k1).length)
      = (segs.map (fun l => l.filter k1)).map (fun l => l.length) := by
    rw [List.map_map]
    rfl
  have hA : segs.flatten.filter k1 = (segs.map (fun l => l.filter k1)).flatten :=
    filter_flatten k1 segs
  have hsegs2 := rowSegs_offsetsFrom
    ((segs.map (fun l => l.filter k1)).map (fun l => l.length)) 0
  have hper := segsOfLens_filter_length q2 (segs.map (fun l => l.filter k1)) []
  simp only [List.nil_append, List.length_nil] at hper
  rw [hcounts, hsegs2, hA, hper, List.map_map]
  have hfun : ((fun row : List Nat => (row.filter q2).length) ∘ fun l : List Nat => l.filter k1)
      = (fun seg : List Nat => (seg.filter (fun j => k1 j && q2 j)).length) := by
    funext seg
    show ((seg.filter k1).filter q2).length = (seg.filter (fun j => k1 j && q2 j)).length
    rw [List.filter_filter]
    have hcomm : (fun a => q2 a && k1 a) = (fun j => k1 j && q2 j) := by
      funext a
      exact Bool.and_comm (q2 a) (k1 a)
    rw [hcomm]
  rw [hfun]

/-- C5: two chained filters with predicates `p1` then `p2` over a view
whose content is not yet a Pointer produce exactly the state of a single
filter with predicate `fun x => p1 x && p2 x`: the collapsed pointer array
(`pointers = innerpositions[pointers]`) is identical to the single
filter's — the kept rows are exactly those satisfying both predicates in
their original relative order — the per-row stops agree, and the result's
Pointer resolves through the original target elements, not through
another Pointer. -/
theorem filter_filter_compose (elem : Nat → α) (p1 p2 : α → Bool) (starts stops : List Nat) :
    filterOp p2 (filterOp p1 ⟨elem, none, starts, stops⟩)
      = filterOp (fun x => p1 x && p2 x) ⟨elem, none, starts, stops⟩ := by
  simp only [filterOp, viewElem]
  rw [FilterState.mk.injEq]
  exact ⟨rfl,
    congrArg some
      (compose_pointers (fun j => p1 (elem j)) (fun j => p2 (elem j)) (rowSegs starts stops)),
    congrArg List.dropLast (congrArg (offsetsFrom 0)
      (compose_counts (fun j => p1 (elem j)) (fun j => p2 (elem j)) (rowSegs starts stops))),
    congrArg List.tail (congrArg (offsetsFrom 0)
      (compose_counts (fun j => p1 (elem j)) (fun j => p2 (elem j)) (rowSegs starts stops)))⟩

/-- A physical array in the overlay: index arrays, float-cell arrays, or
the partially-written nullable primitive buffer. -/
inductive ArrVal where
  | iarr : List Int → ArrVal
  | farr : List F → ArrVal
  | oarr : List (Option Int) → ArrVal
  deriving DecidableEq, Repr

/-- A base array source: (namespace, role name) to array. -/
abbrev Store := List ((NS × String) × ArrVal)

/-- Modelled from the spec: DualSource's deterministic collision-free
namespace generation — the probe's result is a namespace distinct from
every known one (`oamap.util` is external to `src/`). -/
def freshNamespace (known : List NS) : NS := known.foldr max 0 + 1

/-- Modelled from the spec: the two-tier overlay store — reads fall
through to the immutable base for namespaces that predate the overlay,
writes land in the single fresh namespace (`oamap.util.DualSource` is
external to `src/`). -/
structure DualSrc where
  base : Store
  known : List NS
  fresh : NS
  news : List (String × ArrVal)
  deriving DecidableEq, Repr

/-- `DualSource(data._arrays, data._generator.namespaces())`. -/
def dualSource (base : Store) (known : List NS) : DualSrc :=
  ⟨base, known, freshNamespace known, []⟩

/-- `arrays.put(node, raw)`: register one array under the fresh namespace. -/
def DualSrc.put (d : DualSrc) (name : String) (a : ArrVal) : DualSrc :=
  ⟨d.base, d.known, d.fresh, (name, a) :: d.news⟩

/-- Read an array: the overlay's own table for the fresh namespace,
falling through to the base otherwise. -/
def DualSrc.getArr (d : DualSrc) (ns : NS) (name : String) : Option ArrVal :=
  if ns = d.fresh then d.news.lookup name else d.base.lookup (ns, name)

/-- Role names used when publishing arrays. -/
def nameData : String := "data"

/-- Role name of a mask array. -/
def nameMask : String := "mask"

/-- Role name of a starts array. -/
def nameStarts : String := "starts"

/-- Role name of a stops array. -/
def nameStops : String := "stops"

/-- Role name of a positions array. -/
def namePositions : String := "positions"

/-- The mask transform end to end: run the core on the Primitive node,
publish the copied data and the new mask through a fresh overlay layered
on the input's arrays, and stamp the fresh proxy with the input's cursor
via `_setindexes` (mask has no top-level-proxy guard). -/
def maskFull (p : Proxy) (nullable : Bool) (prim : List F) (oldmask : List Int) (low : F)
    (high : Option F) (base : Store) (known : List NS) : Except Err (Proxy × DualSrc) :=
  match maskOp nullable prim oldmask low high with
  | .error e => .error e
  | .ok r =>
    .ok (setindexes p (freshTop p r.2.1.length),
      ((dualSource base known).put nameData (.farr r.2.1)).put nameMask (.iarr r.2.2))

/-- The filter transform end to end: top-level guard, nullability check,
the kernel (`filterOp`), publication of the new starts/stops and pointer
arrays through a fresh overlay, and a freshly constructed proxy (filter
does not call `_setindexes`). -/
def filterFull (p : Proxy) (nullable : Bool) (pr : Int → Bool) (st : FilterState Int)
    (base : Store) (known : List NS) : Except Err (Proxy × FilterState Int × DualSrc) :=
  match toplevel p with
  | .error e => .error e
  | .ok _ =>
    if nullable then .error (.notImpl msgNullable)
    else
      let st2 := filterOp pr st
      .ok (freshTop p st2.starts.length, st2,
        (((dualSource base known).put nameStarts (.iarr (st2.starts.map Int.ofNat))).put
          nameStops (.iarr (st2.stops.map Int.ofNat))).put
          namePositions (.iarr ((st2.positions.getD []).map Int.ofNat)))

/-- The nullable-Primitive branch of define end to end: top-level guard,
nullability check on the record and its list, the contiguity requirement
(`array_equal(viewstarts[1:], viewstops[:-1])`) — rejected before the
callback is ever evaluated and before any overlay is built — then the
fill kernel over the contiguous window `viewstarts[0]..viewstops[-1]` and
publication of the (untrimmed) primitive buffer and the mask. -/
def defineNullableOp (p : Proxy) (recnull listnull : Bool) (viewstarts viewstops : List Nat)
    (elem : Nat → α) (fcn : α → Option Int) (base : Store) (known : List NS) :
    Except Err DualSrc :=
  match toplevel p with
  | .error e => .error e
  | .ok _ =>
    if recnull || listnull then .error (.notImpl msgNullable)
    else if viewstarts.drop 1 = viewstops.dropLast then
      let view := (List.range' (viewstarts.headD 0)
        (viewstops.getLastD 0 - viewstarts.headD 0)).map elem
      let r := defineNullableArrays fcn view
      .ok (((dualSource base known).put nameData (.oarr r.2)).put nameMask (.iarr r.1))
    else .error (.notImpl msgNonContigDefine)

/-- The flatten transform end to end: top-level guard, the core
(`flattenCore`), publication of the two new index arrays through a fresh
overlay, and a freshly constructed proxy (flatten does not call
`_setindexes`). -/
def flattenFull (p : Proxy) (onull inull : Bool) (oS oT iS iT : List Int)
    (cref : Nat) (base : Store) (known : List NS) :
    Except Err (Proxy × List Int × List Int × Nat × DualSrc) :=
  match toplevel p with
  | .error e => .error e
  | .ok _ =>
    match flattenCore onull inull oS oT iS iT cref with
    | .error e => .error e
    | .ok r =>
      .ok (freshTop p r.1.length, r.1, r.2.1, r.2.2,
        ((dualSource base known).put nameStarts (.iarr r.1)).put nameStops (.iarr r.2.1))

theorem le_foldr_max (l : List NS) (x : NS) (hx : x ∈ l) : x ≤ l.foldr max 0 := by
  induction l with
  | nil => cases hx
  | cons a t ih =>
    rcases List.mem_cons.mp hx with h | h
    · rw [h]
      exact Nat.le_max_left a (t.foldr max 0)
    · exact le_trans (ih h) (Nat.le_max_right a (t.foldr max 0))

theorem mem_known_ne_fresh (known : List NS) (ns : NS) (h : ns ∈ known) :
    ns ≠ freshNamespace known := by
  have hle := le_foldr_max known ns h
  intro heq
  rw [freshNamespace] at heq
  rw [heq] at hle
  exact Nat.not_succ_le_self _ hle

/-- C7: the transforms publish their new arrays only through a fresh
overlay layered on the input's array source — the fresh namespace never
collides with a known one, so every read of a pre-existing array through
the output source returns exactly the base's array; the input's own
arrays and schema values are never written (mask works on a copy of the
data array; the pure embedding returns new values throughout), so the
input view stays valid and unchanged. -/
theorem transforms_nondestructive (p : Proxy) (nullable : Bool) (prim : List F)
    (oldmask : List Int) (low : F) (high : Option F) (pr : Int → Bool) (st : FilterState Int)
    (recnull listnull : Bool) (vS vT : List Nat) (elem : Nat → Int) (fcn : Int → Option Int)
    (onull inull : Bool) (oS oT iS iT : List Int) (cref : Nat)
    (base : Store) (known : List NS) (ns : NS) (name : String) (hns : ns ∈ known) :
    (∀ q ds, maskFull p nullable prim oldmask low high base known = .ok (q, ds) →
        ds.getArr ns name = base.lookup (ns, name))
    ∧ (∀ q st2 ds, filterFull p nullable pr st base known = .ok (q, st2, ds) →
        ds.getArr ns name = base.lookup (ns, name))
    ∧ (∀ ds, defineNullableOp p recnull listnull vS vT elem fcn base known = .ok ds →
        ds.getArr ns name = base.lookup (ns, name))
    ∧ (∀ q s t c ds, flattenFull p onull inull oS oT iS iT cref base known = .ok (q, s, t, c, ds) →
        ds.getArr ns name = base.lookup (ns, name)) := by
  have hne : ns ≠ freshNamespace known := mem_known_ne_fresh known ns hns
  refine ⟨?_, ?_, ?_, ?_⟩
  · intro q ds hok
    cases hm : maskOp nullable prim oldmask low high with
    | error e => simp [maskFull, hm] at hok
    | ok r =>
      simp only [maskFull, hm, Except.ok.injEq, Prod.mk.injEq] at hok
      obtain ⟨-, hds⟩ := hok
      rw [← hds]
      simp [DualSrc.getArr, DualSrc.put, dualSource, hne]
  · intro q st2 ds hok
    cases ht : toplevel p with
    | error e => simp [filterFull, ht] at hok
    | ok u =>
      cases hn : nullable with
      | true => simp [filterFull, ht, hn] at hok
      | false =>
        simp only [filterFull, ht, hn, Bool.false_eq_true, if_false, Except.ok.injEq,
          Prod.mk.injEq] at hok
        obtain ⟨-, -, hds⟩ := hok
        rw [← hds]
        simp [DualSrc.getArr, DualSrc.put, dualSource, hne]
  · intro ds hok
    cases ht : toplevel p with
    | error e => simp [defineNullableOp, ht] at hok
    | ok u =>
      cases hrn : recnull with
      | true => simp [defineNullableOp, ht, hrn] at hok
      | false =>
        cases hln : listnull with
        | true => simp [defineNullableOp, ht, hrn, hln] at hok
        | false =>
          by_cases hc : vS.drop 1 = vT.dropLast
          · simp only [defineNullableOp, ht, hrn, hln, Bool.or_self, Bool.false_eq_true,
              if_false, if_pos hc, Except.ok.injEq] at hok
            rw [← hok]
            simp [DualSrc.getArr, DualSrc.put, dualSource, hne]
          · rw [List.drop_one] at hc
            simp [defineNullableOp, ht, hrn, hln, hc] at hok
  · intro q s t c ds hok
    cases ht : toplevel p with
    | error e => simp [flattenFull, ht] at hok
    | ok u =>
      cases hfc : flattenCore onull inull oS oT iS iT cref with
      | error e => simp [flattenFull, ht, hfc] at hok
      | ok r =>
        simp only [flattenFull, ht, hfc, Except.ok.injEq, Prod.mk.injEq] at hok
        obtain ⟨-, -, -, -, hds⟩ := hok
        rw [← hds]
        simp [DualSrc.getArr, DualSrc.put, dualSource, hne]

/-- C7 witness: masking over a base holding array `(5, "data") ↦ [7]` with
known namespace 5 — the output overlay still reads that array from the
base unchanged. -/
theorem transforms_nondestructive_w :
    DualSrc.getArr
        (((dualSource [((5, nameData), ArrVal.iarr [7])] [5]).put nameData
          (.farr [some 1])).put nameMask (.iarr [maskedvalue])) 5 nameData
      = List.lookup (5, nameData) [((5, nameData), ArrVal.iarr [7])] :=
  (transforms_nondestructive (.listP 0 1 1) false [some 1] [] (some 1) none
    (fun _ => true) ⟨fun _ => 0, none, [], []⟩ false false [] [] (fun _ => 0) (fun _ => none)
    false false [] [] [] [] 0 [((5, nameData), ArrVal.iarr [7])] [5] 5 nameData
    (by decide)).1
    (setindexes (.listP 0 1 1) (freshTop (.listP 0 1 1) 1))
    (((dualSource [((5, nameData), ArrVal.iarr [7])] [5]).put nameData
      (.farr [some 1])).put nameMask (.iarr [maskedvalue])) rfl

theorem setindexes_freshTop (p : Proxy) (n : Nat) : setindexes p (freshTop p n) = p := by
  cases p <;> rfl

/-- Output-cursor projection of the flatten transform. -/
def flattenOutProxy : Except Err (Proxy × List Int × List Int × Nat × DualSrc) → Option Proxy
  | .ok r => some r.1
  | .error _ => none

/-- Output-cursor projection of the mask transform. -/
def maskOutProxy : Except Err (Proxy × DualSrc) → Option Proxy
  | .ok r => some r.1
  | .error _ => none

/-- `Except` success test. -/
def exceptOk : Except Err γ → Bool
  | .ok _ => true
  | .error _ => false

/-- C2 (amended): fieldname, recordname, project, keep, drop and mask pass
their result through `_setindexes` and so return the input's cursor
verbatim (shown here for mask); split, merge, flatten, filter and define
return the freshly constructed proxy directly (shown here for flatten and
filter), whose cursor is the whole-collection default — whence 0, stride
1, length the result's row count for a list; index 0 for a record/tuple —
so those transforms preserve the input's cursor only when it already
equals that default. -/
theorem cursor_propagation (p : Proxy) (nullable : Bool) (prim : List F) (oldmask : List Int)
    (low : F) (high : Option F) (pr : Int → Bool) (st : FilterState Int)
    (onull inull : Bool) (oS oT iS iT : List Int) (cref : Nat)
    (base : Store) (known : List NS) :
    (∀ q ds, maskFull p nullable prim oldmask low high base known = .ok (q, ds) → q = p)
    ∧ (∀ q st2 ds, filterFull p nullable pr st base known = .ok (q, st2, ds)
        → q = freshTop p st2.starts.length)
    ∧ (∀ q s t c ds, flattenFull p onull inull oS oT iS iT cref base known = .ok (q, s, t, c, ds)
        → q = freshTop p s.length) := by
  refine ⟨?_, ?_, ?_⟩
  · intro q ds hok
    cases hm : maskOp nullable prim oldmask low high with
    | error e => simp [maskFull, hm] at hok
    | ok r =>
      simp only [maskFull, hm, Except.ok.injEq, Prod.mk.injEq] at hok
      obtain ⟨hq, -⟩ := hok
      rw [← hq, setindexes_freshTop]
  · intro q st2 ds hok
    cases ht : toplevel p with
    | error e => simp [filterFull, ht] at hok
    | ok u =>
      cases hn : nullable with
      | true => simp [filterFull, ht, hn] at hok
      | false =>
        simp only [filterFull, ht, hn, Bool.false_eq_true, if_false, Except.ok.injEq,
          Prod.mk.injEq] at hok
        obtain ⟨hq, hst, -⟩ := hok
        rw [← hq, ← hst]
  · intro q s t c ds hok
    cases ht : toplevel p with
    | error e => simp [flattenFull, ht] at hok
    | ok u =>
      cases hfc : flattenCore onull inull oS oT iS iT cref with
      | error e => simp [flattenFull, ht, hfc] at hok
      | ok r =>
        simp only [flattenFull, ht, hfc, Except.ok.injEq, Prod.mk.injEq] at hok
        obtain ⟨hq, hs, -, -, -⟩ := hok
        rw [← hq, ← hs]

/-- C2 counterexample: flatten accepts a ListProxy slice cursor
`(whence 0, stride 1, length 1)` over a 2-row outer list, but returns the
fresh whole-collection cursor `(0, 1, 2)` — not the input's cursor, so the
cursor is not copied verbatim. -/
theorem flatten_cursor_not_copied :
    flattenOutProxy
        (flattenFull (.listP 0 1 1) false false [0, 2] [2, 3] [0, 2, 5] [2, 5, 7] 42 [] [])
      = some (.listP 0 1 2)
    ∧ Proxy.listP 0 1 2 ≠ Proxy.listP 0 1 1 := by
  constructor
  · rfl
  · decide

/-- C2 witness: mask applied through a non-default list cursor
`(whence 5, stride 2, length 9)` returns exactly that cursor. -/
theorem cursor_propagation_w :
    maskOutProxy (maskFull (.listP 5 2 9) false [some 1] [] (some 1) none [] [])
      = some (.listP 5 2 9) := by
  have h := (cursor_propagation (.listP 5 2 9) false [some 1] [] (some 1) none
      (fun _ => true) ⟨fun _ => 0, none, [], []⟩ false false [] [] [] [] 0 [] []).1
    (setindexes (.listP 5 2 9) (freshTop (.listP 5 2 9) 1))
    (((dualSource ([] : Store) ([] : List NS)).put nameData (.farr [some 1])).put nameMask
      (.iarr [maskedvalue])) rfl
  calc maskOutProxy (maskFull (.listP 5 2 9) false [some 1] [] (some 1) none [] [])
      = some (setindexes (.listP 5 2 9) (freshTop (.listP 5 2 9) 1)) := rfl
    _ = some (.listP 5 2 9) := by rw [h]

/-- C9: with a non-contiguous view (`viewstarts[1:] != viewstops[:-1]`),
define fails with the non-contiguity error for every callback — before the
callback is evaluated on any element and before any overlay is published —
while reduce and filter accept the same non-contiguous starts/stops, using
the `min(starts)..max(stops)` window. -/
theorem define_requires_contiguous (p : Proxy) (viewstarts viewstops : List Nat)
    (elem : Nat → Nat) (elemI : Nat → Int) (base : Store) (known : List NS)
    (lo hi : Nat) (tally : Nat) (fcn2 : FcnWithArity Nat Nat)
    (hp : toplevel p = .ok ()) (hnc : viewstarts.drop 1 ≠ viewstops.dropLast)
    (hlo : npMin viewstarts = some lo) (hhi : npMax viewstops = some hi)
    (har : 2 ≤ fcn2.argcount) :
    (∀ fcn : Nat → Option Int,
      defineNullableOp p false false viewstarts viewstops elem fcn base known
        = .error (.notImpl msgNonContigDefine))
    ∧ reduceOp p false viewstarts viewstops elem tally fcn2
        = .ok (((List.range' lo (hi - lo)).map elem).foldl (fun t d => fcn2.call d t) tally)
    ∧ (∀ pr : Int → Bool,
        exceptOk (filterFull p false pr ⟨elemI, none, viewstarts, viewstops⟩ base known)
          = true) := by
  refine ⟨?_, ?_, ?_⟩
  · intro fcn
    rw [List.drop_one] at hnc
    simp [defineNullableOp, hp, hnc]
  · have hlt : ¬fcn2.argcount < 2 := by omega
    simp [reduceOp, hp, hlo, hhi, hlt]
  · intro pr
    simp [filterFull, hp, exceptOk]

/-- C9 witness: starts `[0, 5]`, stops `[3, 8]` are non-contiguous
(`[5] != [3]`): define fails while reduce folds over the window `0..8`. -/
theorem define_requires_contiguous_w :
    defineNullableOp (.listP 0 1 2) false false [0, 5] [3, 8] (fun i => i) (fun _ => none) [] []
      = .error (.notImpl msgNonContigDefine) :=
  (define_requires_contiguous (.listP 0 1 2) [0, 5] [3, 8] (fun i => i) (fun i => (i : Int))
    [] [] 0 8 0 ⟨2, fun e t => t + e⟩ rfl (by decide) rfl rfl (by decide)).1 (fun _ => none)
